import Mathlib

/-!
Verification development for the go-tss core coordination engine.

The Go source is embedded shallowly: pure fragments become Lean functions,
channel-driven loops become recursive functions over explicit event traces,
and interface values carried on channels become inductive types.  Machine
byte strings are modelled as `List Nat` (each entry one byte).  Functions of
the repository that live outside the provided sources are modelled from the
specification and marked as such in their doc comments.
-/

namespace GoTss

/-! ## Signatures and the sort applied by `EDDSATssKeySign.SignMessage`

`SignatureData` mirrors the protobuf message `tsslibcommon.SignatureData`:
`M`, `R`, `S` are byte strings.  `SignMessage` ends with

  sort.SliceStable(results, func(i, j int) bool \x7b
      a := new(big.Int).SetBytes(results[i].M)
      b := new(big.Int).SetBytes(results[j].M)
      if a.Cmp(b) == -1 \x7b return false \x7d
      return true
  \x7d)

`big.Int.SetBytes` interprets the bytes big-endian; `a.Cmp(b) == -1` means
`a < b`.  The stable sort is modelled as an insertion sort driven by exactly
that comparator. -/

/-- Bytes of a signature field, one `Nat` per byte (values < 256 in practice;
nothing below depends on the bound). -/
abbrev Bytes := List Nat

/-- `big.Int.SetBytes`: interpret a byte string as a big-endian natural. -/
def setBytes (bs : Bytes) : Nat :=
  bs.foldl (fun acc b => acc * 256 + b) 0

/-- The fields of `tsslibcommon.SignatureData` used by the engine. -/
structure SignatureData where
  M : Bytes
  R : Bytes
  S : Bytes
deriving DecidableEq, Repr

/-- The comparator closure passed to `sort.SliceStable` in `SignMessage`:
returns `false` exactly when `big-endian(x.M) < big-endian(y.M)`. -/
def signMessageLess (x y : SignatureData) : Bool :=
  if setBytes x.M < setBytes y.M then false else true

/-- One insertion step of the stable sort with respect to `signMessageLess`. -/
def insertSig (x : SignatureData) : List SignatureData → List SignatureData
  | [] => [x]
  | y :: ys => if signMessageLess x y then x :: y :: ys else y :: insertSig x ys

/-- The sort `SignMessage` applies to the collected signatures before
returning them (stable sort by `signMessageLess`, here insertion sort). -/
def sortSignatures : List SignatureData → List SignatureData
  | [] => []
  | x :: xs => insertSig x (sortSignatures xs)

/-- `true` iff adjacent `M` values are non-decreasing (ascending big-endian). -/
def isSortedAscByM : List SignatureData → Bool
  | [] => true
  | [_] => true
  | x :: y :: rest => decide (setBytes x.M ≤ setBytes y.M) && isSortedAscByM (y :: rest)

/-- `true` iff adjacent `M` values are non-increasing (descending big-endian). -/
def isSortedDescByM : List SignatureData → Bool
  | [] => true
  | [_] => true
  | x :: y :: rest => decide (setBytes y.M ≤ setBytes x.M) && isSortedDescByM (y :: rest)

/-! ## `Communication.Broadcast` and its helpers

Peer ids are strings.  `broadcastToPeers` walks the peers discovered under
the rendezvous string and writes to each one `shouldWeWriteToPeer` accepts;
`writeToStream` additionally skips the local host.  The discovery channel
is modelled as the list `discovered`; the function returns the list of peers
the message is actually written to. -/

abbrev PeerID := String

/-- `Communication.shouldWeWriteToPeer`, verbatim from the source: an empty
target list means broadcast to everyone, otherwise membership. -/
def shouldWeWriteToPeer (ai : PeerID) (peers : List PeerID) : Bool :=
  if peers.length == 0 then
    true
  else
    peers.any (fun p => ai == p)

/-- `Communication.writeToStream` sends to one peer, skipping the local
host: returns `true` iff a frame is written. -/
def writeToStream (self ai : PeerID) : Bool :=
  if ai == self then false else true

/-- `Communication.broadcastToPeers`: the early return on an empty target
list comes first; only then are discovered peers filtered through
`shouldWeWriteToPeer` and written via `writeToStream`.  Result: the peers
the message is sent to. -/
def broadcastToPeers (self : PeerID) (peers : List PeerID)
    (discovered : List PeerID) : List PeerID :=
  if peers.length == 0 then
    []
  else
    discovered.filter (fun ai => shouldWeWriteToPeer ai peers && writeToStream self ai)

/-! ## Round tags and the keysign event loop `processKeySign`

`processKeySign` is a Go `select` loop over five sources: the error channel,
the stop channel, the round timeout, the out-channel, and the end-channel.
It is embedded as a recursion over an explicit trace of channel events.
Blame-evidence lookups performed on the timeout path are recorded as
`BlameQuery` values instead of being answered, since the claims are about
which evidence table of which round is consulted. -/

/-- The message round tags relevant to the blame paths.  `keyGen2a` stands
for `messages.EDDSAKEYGEN2a`; the `keySign*` tags stand for the keysign
round message types. -/
inductive RoundTag where
  | keyGen1 | keyGen2a | keyGen2b
  | keySign1aUnicast | keySign1b | keySign2Unicast | keySign3
deriving DecidableEq, Repr

/-- Modelled from the spec: `conversion.GetPreviousKeySignUicast` is not
under the provided sources.  Spec section 4.5 describes the lookup as mapping
a round tag to the unicast tag of the previous round: round 1b is preceded by
the round-1a unicast, later rounds by the round-2 unicast. -/
def GetPreviousKeySignUicast (current : RoundTag) : RoundTag :=
  match current with
  | RoundTag.keySign1b => RoundTag.keySign1aUnicast
  | _ => RoundTag.keySign2Unicast

/-- The data of the last outbound `btss.Message` kept by the blame manager:
its round type and whether it was a broadcast. -/
structure LastMsg where
  type : RoundTag
  isBroadcast : Bool
deriving DecidableEq, Repr

/-- An evidence lookup performed by the blame manager: `unicastQ r` is
`GetUnicastBlame(r)`, `broadcastQ r` is `GetBroadcastBlame(r)`, and
`missingShareQ` is `TssMissingShareBlame(rounds, algo)`. -/
inductive BlameQuery where
  | unicastQ (r : RoundTag)
  | broadcastQ (r : RoundTag)
  | missingShareQ
deriving DecidableEq, Repr

/-- One event of the `select` loop in `processKeySign`. -/
inductive KSEvent where
  | errClosed
  | stopReceived
  | timeout
  | outMsg (m : LastMsg)
  | endSig (s : SignatureData)
deriving DecidableEq, Repr

/-- Outcome of the keysign loop.  `pending` means the trace ended with the
loop still blocked in `select` (no return happened). -/
inductive KSOutcome where
  | success (sigs : List SignatureData)
  | failure (err : String) (queries : List BlameQuery)
  | panicked
  | pending (sigs : List SignatureData)
deriving DecidableEq, Repr

/-- The evidence lookups of the keysign timeout branch, in program order:
if the last message was not a broadcast, `GetUnicastBlame(lastMsg.Type())`;
otherwise `GetUnicastBlame(GetPreviousKeySignUicast(lastMsg.Type()))`;
in either case `GetBroadcastBlame(lastMsg.Type())` follows. -/
def keySignTimeoutQueries (m : LastMsg) : List BlameQuery :=
  (if !m.isBroadcast then
    [BlameQuery.unicastQ m.type]
   else
    [BlameQuery.unicastQ (GetPreviousKeySignUicast m.type)])
  ++ [BlameQuery.broadcastQ m.type]

/-- `EDDSATssKeySign.processKeySign` over an event trace.  State threaded
through the loop: the blame manager's last outbound message and the
signatures collected so far.  On `endSig` the signature is appended and the
loop returns exactly when `reqNum` signatures are held; on `timeout` the
blame path runs (dereferencing a nil last message panics, as it would in
Go).  The conditional `SetBlame`/`AddBlameNodes` updates after the queries
depend only on the query answers and are not tracked here. -/
def processKeySign (reqNum : Nat) (lastMsg : Option LastMsg)
    (sigs : List SignatureData) : List KSEvent → KSOutcome
  | [] => KSOutcome.pending sigs
  | KSEvent.errClosed :: _ =>
      KSOutcome.failure "error channel closed fail to start local party" []
  | KSEvent.stopReceived :: _ =>
      KSOutcome.failure "received exit signal" []
  | KSEvent.timeout :: _ =>
      match lastMsg with
      | none => KSOutcome.panicked
      | some m => KSOutcome.failure "ErrTssTimeOut" (keySignTimeoutQueries m)
  | KSEvent.outMsg m :: rest => processKeySign reqNum (some m) sigs rest
  | KSEvent.endSig s :: rest =>
      let sigs2 := sigs ++ [s]
      if sigs2.length == reqNum then
        KSOutcome.success sigs2
      else
        processKeySign reqNum lastMsg sigs2 rest

/-! ## The keygen event loop `EDDSAKeyGen.processKeyGen`

Same shape as the keysign loop, with the keygen timeout branch: the nil
check on the last message returns before any evidence is consulted; the
non-nil branch queries `GetUnicastBlame(EDDSAKEYGEN2a)`, possibly sets
unicast blame, queries `GetBroadcastBlame(lastMsg.Type())`, appends, and
runs the missing-share sweep only when the blame node list is still empty.
The contents of the evidence tables are parameters (`uniEv`, `bcastEv`,
`missing`). -/

/-- One event of the `select` loop in `processKeyGen`. -/
inductive KGEvent where
  | errClosed
  | stopReceived
  | timeout
  | outMsg (m : LastMsg)
  | endReached
deriving DecidableEq, Repr

/-- The blame state produced by a keygen failure: the accused nodes, the
`IsUnicast` flag, and the evidence lookups performed. -/
structure KGBlame where
  nodes : List String
  isUnicast : Bool
  queries : List BlameQuery
deriving DecidableEq, Repr

/-- Outcome of the keygen loop over a trace. -/
inductive KGOutcome where
  | success
  | failure (err : String) (b : KGBlame)
  | pending
deriving DecidableEq, Repr

/-- The keygen timeout branch for a non-nil last message, parameterised by
the answers of the evidence tables. -/
def keyGenTimeoutBlame (uniEv bcastEv : RoundTag → List String)
    (missing : List String × Bool) (threshold : Nat) (m : LastMsg) : KGBlame :=
  let bu := uniEv RoundTag.keyGen2a
  let nodes0 : List String :=
    if 0 < bu.length ∧ bu.length ≤ threshold then bu else []
  let uni0 : Bool := decide (0 < bu.length ∧ bu.length ≤ threshold)
  let bb := bcastEv m.type
  let nodes1 := nodes0 ++ bb
  let queries1 := [BlameQuery.unicastQ RoundTag.keyGen2a, BlameQuery.broadcastQ m.type]
  if nodes1.length == 0 then
    if 0 < missing.1.length ∧ missing.1.length ≤ threshold then
      ⟨nodes1 ++ missing.1, missing.2, queries1 ++ [BlameQuery.missingShareQ]⟩
    else
      ⟨nodes1, uni0, queries1 ++ [BlameQuery.missingShareQ]⟩
  else
    ⟨nodes1, uni0, queries1⟩

/-- `EDDSAKeyGen.processKeyGen` over an event trace.  On `timeout` with a
nil last message the loop returns the timeout error at once, with no
evidence lookup and no accused node. -/
def processKeyGen (uniEv bcastEv : RoundTag → List String)
    (missing : List String × Bool) (threshold : Nat)
    (lastMsg : Option LastMsg) : List KGEvent → KGOutcome
  | [] => KGOutcome.pending
  | KGEvent.errClosed :: _ =>
      KGOutcome.failure "error channel closed fail to start local party" ⟨[], false, []⟩
  | KGEvent.stopReceived :: _ =>
      KGOutcome.failure "received exit signal" ⟨[], false, []⟩
  | KGEvent.timeout :: _ =>
      match lastMsg with
      | none =>
          KGOutcome.failure "timeout before shared message is generated" ⟨[], false, []⟩
      | some m =>
          KGOutcome.failure "ErrTssTimeOut" (keyGenTimeoutBlame uniEv bcastEv missing threshold m)
  | KGEvent.outMsg m :: rest => processKeyGen uniEv bcastEv missing threshold (some m) rest
  | KGEvent.endReached :: _ => KGOutcome.success

/-! ## The `TssServer.KeySign` orchestrator

The keysign entry point (given that loading the key-share and base64
decoding succeed) proceeds: reject an empty signer list; compute the
threshold from the participant-key count; reject when the signer count does
not exceed it; fall back to the signature notifier when this node is not a
signer; otherwise run party formation and then the signing session.  Party
formation and the signing session are external at this level and enter the
model as outcome parameters. -/

/-- Modelled from the spec: `common.GetThreshold` is not under the provided
sources.  Spec sections 4.7 and 8 give the formula
`threshold(n) = ceil((2/3) * n) - 1`; a negative input is an error. -/
def GetThreshold (n : Int) : Except String Int :=
  if n < 0 then
    Except.error "negative input"
  else
    Except.ok ((2 * n + 2) / 3 - 1)

/-- The outcome of `t.joinParty` as seen by `KeySign`: a Go error, a
response whose `Type` is not `Success` (carrying the peers that responded),
or success. -/
inductive JoinPartyRes where
  | jpErr
  | jpNotSuccess (responded : List String)
  | jpSuccess
deriving DecidableEq, Repr

/-- HTTP-level status of a keysign response. -/
inductive Status where
  | success
  | fail
deriving DecidableEq, Repr

/-- Blame fail-reason tags used by `KeySign`. -/
inductive BlameReason where
  | noBlame
  | tssCoordinator
  | tssSync
  | timeoutReason
  | other (s : String)
deriving DecidableEq, Repr

/-- A blame verdict: `common.Blame` restricted to the fields `KeySign`
constructs. -/
structure Blame where
  reason : BlameReason
  nodes : List String
deriving DecidableEq, Repr

/-- The outcome of `keysignInstance.SignMessage` as seen by `KeySign`. -/
inductive SignOutcome where
  | sigErr (blamePeers : Blame)
  | sigOk (sigs : List SignatureData)
deriving DecidableEq, Repr

/-- `common.NewBlame`. -/
def NewBlame (reason : BlameReason) (nodes : List String) : Blame :=
  ⟨reason, nodes⟩

/-- `Blame.AddBlameNodes` with one node (append). -/
def addBlameNode (b : Blame) (pk : String) : Blame :=
  ⟨b.reason, b.nodes ++ [pk]⟩

/-- Modelled from the spec: `t.getBlamePeers` is not under the provided
sources.  Spec section 7 (`JoinPartyFail`): blame the responding set when
the leader answered but the quorum was not reached — the signers missing
from the responded set are accused under the given reason. -/
def getBlamePeers (signers responded : List String) (reason : BlameReason) : Blame :=
  ⟨reason, signers.filter (fun s => !(responded.contains s))⟩

/-- A keysign response as `KeySign` builds it: status, blame, signatures. -/
structure KeySignResponse where
  status : Status
  blame : Blame
  signatures : List SignatureData
deriving DecidableEq, Repr

/-- Return value of `KeySign`: either an explicit Go error with the empty
response, a response paired with a nil error, or the signature-notifier wait
path taken by non-signers. -/
inductive KeySignRet where
  | retErr (msg : String)
  | retResp (r : KeySignResponse)
  | retWait
deriving DecidableEq, Repr

/-- `TssServer.KeySign` from the empty-signers check onward (storage load
and base64 decode assumed successful).  `leaderPk` is the public key
extracted from the party-formation leader's peer id; `jp` and `so` are the
outcomes of party formation and of the signing session. -/
def KeySign (localNodePubKey : String) (participantKeys signerPubKeys : List String)
    (leaderPk : String) (jp : JoinPartyRes) (so : SignOutcome) : KeySignRet :=
  if signerPubKeys.length == 0 then
    KeySignRet.retErr "empty signer pub keys"
  else
    match GetThreshold (participantKeys.length : Int) with
    | Except.error _ => KeySignRet.retErr "fail to get threshold"
    | Except.ok threshold =>
      if (signerPubKeys.length : Int) ≤ threshold then
        KeySignRet.retErr "not enough signers"
      else if !(signerPubKeys.contains localNodePubKey) then
        KeySignRet.retWait
      else
        match jp with
        | JoinPartyRes.jpErr =>
            KeySignRet.retResp ⟨Status.fail, NewBlame BlameReason.tssCoordinator [leaderPk], []⟩
        | JoinPartyRes.jpNotSuccess responded =>
            KeySignRet.retResp
              ⟨Status.fail,
               addBlameNode (getBlamePeers signerPubKeys responded BlameReason.tssSync) leaderPk,
               []⟩
        | JoinPartyRes.jpSuccess =>
            match so with
            | SignOutcome.sigErr blamePeers =>
                KeySignRet.retResp ⟨Status.fail, blamePeers, []⟩
            | SignOutcome.sigOk sigs =>
                KeySignRet.retResp ⟨Status.success, NewBlame BlameReason.noBlame [], sigs⟩

/-! ## `Communication.readFromStream` and `MaxPayload`

The read loop parses one length-prefixed frame at a time.  A frame whose
header declares more than `MaxPayload` bytes makes the loop return, which
resets (drops) the stream; nothing of that frame or of any later frame is
delivered.  A frame whose body fails to unmarshal, or for which no
subscriber is registered, is skipped and the loop continues.  The function
returns the messages delivered to subscriber channels, in order. -/

/-- `p2p.MaxPayload`: the maximum payload for a message (80kb). -/
def MaxPayload : Nat := 81920

/-- The message types carried in `WrappedMessage.MessageType`
(`THORChainTSSMessageType`). -/
inductive THORChainTSSMessageType where
  | TSSKeyGenMsg
  | TSSKeySignMsg
  | TSSKeyGenVerMsg
  | TSSKeySignVerMsg
  | TSSControlMsg
  | TSSTaskDone
deriving DecidableEq, Repr

/-- A wire message after JSON unmarshalling. -/
structure WrappedMessage where
  messageType : THORChainTSSMessageType
  msgID : String
  payload : Bytes
deriving DecidableEq, Repr

/-- One item observed on an inbound stream: either end-of-file or a frame
with a declared length and, when JSON unmarshalling succeeds, the decoded
`WrappedMessage`. -/
inductive StreamItem where
  | eof
  | frame (declaredLen : Nat) (msg : Option WrappedMessage)
deriving DecidableEq, Repr

/-- `Communication.readFromStream`: `sub t id` tells whether
`getSubscriber` finds a channel for `(t, id)`.  Returns the messages handed
to subscriber channels. -/
def readFromStream (sub : THORChainTSSMessageType → String → Bool) :
    List StreamItem → List WrappedMessage
  | [] => []
  | StreamItem.eof :: _ => []
  | StreamItem.frame l m :: rest =>
      if l > MaxPayload then
        []
      else
        match m with
        | none => readFromStream sub rest
        | some w =>
            if sub w.messageType w.msgID then
              w :: readFromStream sub rest
            else
              readFromStream sub rest

/-! ## The subscription table

`Communication.subscribers` maps a message type to a `MessageIDSubscriber`
(a map from msg-id to channel).  The outer Go map is embedded as an
association list with at most one entry per type (the operations preserve
that), the inner one likewise with channels as opaque numbers.
`MessageIDSubscriber` itself is not under the provided sources; its
operations are modelled from the spec (section 3, subscription table, and
section 4.2): `Subscribe` stores the channel under the msg-id, `UnSubscribe`
removes the msg-id, `IsEmpty` tests for no remaining subscriber. -/

/-- Modelled from the spec: the inner `MessageIDSubscriber` map, msg-id to
channel (channels as opaque numbers). -/
abbrev MessageIDSubscriber := List (String × Nat)

/-- Modelled from the spec: `NewMessageIDSubscriber` starts empty. -/
def NewMessageIDSubscriber : MessageIDSubscriber := []

/-- Modelled from the spec: `MessageIDSubscriber.Subscribe` stores the
channel under the msg-id (map assignment: any previous entry is replaced). -/
def msidSubscribe (m : MessageIDSubscriber) (msgID : String) (channel : Nat) :
    MessageIDSubscriber :=
  (msgID, channel) :: m.filter (fun p => !(p.1 == msgID))

/-- Modelled from the spec: `MessageIDSubscriber.UnSubscribe` deletes the
msg-id entry. -/
def msidUnSubscribe (m : MessageIDSubscriber) (msgID : String) :
    MessageIDSubscriber :=
  m.filter (fun p => !(p.1 == msgID))

/-- Modelled from the spec: `MessageIDSubscriber.IsEmpty`. -/
def msidIsEmpty (m : MessageIDSubscriber) : Bool :=
  m.length == 0

/-- The outer `subscribers` map, message type to inner subscriber map. -/
abbrev Subscribers := List (THORChainTSSMessageType × MessageIDSubscriber)

/-- Go map read: `c.subscribers[topic]` with its `ok` flag. -/
def subLookup (s : Subscribers) (topic : THORChainTSSMessageType) :
    Option MessageIDSubscriber :=
  (s.find? (fun p => p.1 == topic)).map (fun p => p.2)

/-- Go map write: `c.subscribers[topic] = inner`. -/
def subStore (s : Subscribers) (topic : THORChainTSSMessageType)
    (inner : MessageIDSubscriber) : Subscribers :=
  (topic, inner) :: s.filter (fun p => !(p.1 == topic))

/-- Go map delete: `delete(c.subscribers, topic)`. -/
def subDelete (s : Subscribers) (topic : THORChainTSSMessageType) : Subscribers :=
  s.filter (fun p => !(p.1 == topic))

/-- `Communication.SetSubscribe`: create the inner map when the topic is
absent, then subscribe the channel under the msg-id. -/
def SetSubscribe (s : Subscribers) (topic : THORChainTSSMessageType)
    (msgID : String) (channel : Nat) : Subscribers :=
  match subLookup s topic with
  | none => subStore s topic (msidSubscribe NewMessageIDSubscriber msgID channel)
  | some inner => subStore s topic (msidSubscribe inner msgID channel)

/-- `Communication.CancelSubscribe`: nothing happens when the topic is
absent; otherwise unsubscribe the msg-id, and delete the outer entry when
the inner map became empty. -/
def CancelSubscribe (s : Subscribers) (topic : THORChainTSSMessageType)
    (msgID : String) : Subscribers :=
  match subLookup s topic with
  | none => s
  | some inner =>
      let inner2 := msidUnSubscribe inner msgID
      if msidIsEmpty inner2 then
        subDelete s topic
      else
        subStore s topic inner2

/-- One mutation of the subscription table. -/
inductive SubOp where
  | set (topic : THORChainTSSMessageType) (msgID : String) (channel : Nat)
  | cancel (topic : THORChainTSSMessageType) (msgID : String)
deriving DecidableEq, Repr

/-- Apply a sequence of subscription operations, oldest first. -/
def applySubOps (s : Subscribers) : List SubOp → Subscribers
  | [] => s
  | SubOp.set t id ch :: rest => applySubOps (SetSubscribe s t id ch) rest
  | SubOp.cancel t id :: rest => applySubOps (CancelSubscribe s t id) rest

/-- The no-empty-leaves invariant: every message type present in the table
has at least one registered subscriber entry. -/
def noEmptyLeaves (s : Subscribers) : Prop :=
  ∀ t inner, subLookup s t = some inner → inner ≠ []

/-! ## Shared lemmas -/

/-- `signMessageLess x y` is false exactly when `x.M` is numerically below
`y.M`. -/
theorem signMessageLess_eq_false_iff (x y : SignatureData) :
    signMessageLess x y = false ↔ setBytes x.M < setBytes y.M := by
  by_cases h : setBytes x.M < setBytes y.M <;> simp [signMessageLess, h]

/-- Inserting with the `SignMessage` comparator keeps the list sorted by
descending big-endian `M`. -/
theorem insertSig_sorted (x : SignatureData) (l : List SignatureData)
    (h : isSortedDescByM l = true) : isSortedDescByM (insertSig x l) = true := by
  induction l with
  | nil => simp [insertSig, isSortedDescByM]
  | cons y ys ih =>
    by_cases hxy : signMessageLess x y = true
    · have hle : setBytes y.M ≤ setBytes x.M := by
        by_cases hlt : setBytes x.M < setBytes y.M
        · simp [signMessageLess, hlt] at hxy
        · omega
      rw [insertSig, if_pos hxy]
      simp [isSortedDescByM, hle, h]
    · have hlt : setBytes x.M < setBytes y.M := by
        rw [Bool.not_eq_true] at hxy
        exact (signMessageLess_eq_false_iff x y).mp hxy
      rw [insertSig, if_neg hxy]
      cases ys with
      | nil =>
        simp [insertSig, isSortedDescByM]
        omega
      | cons z zs =>
        have hzy : setBytes z.M ≤ setBytes y.M := by
          simp [isSortedDescByM] at h
          exact h.1
        have hzs : isSortedDescByM (z :: zs) = true := by
          simp [isSortedDescByM] at h ⊢
          exact h.2
        have ih2 := ih hzs
        by_cases hxz : signMessageLess x z = true
        · rw [insertSig, if_pos hxz] at ih2 ⊢
          simp [isSortedDescByM] at ih2 ⊢
          exact ⟨Nat.le_of_lt hlt, ih2⟩
        · rw [insertSig, if_neg hxz] at ih2 ⊢
          simp [isSortedDescByM] at ih2 ⊢
          exact ⟨hzy, ih2⟩

/-- Inserting with the `SignMessage` comparator only rearranges. -/
theorem insertSig_perm (x : SignatureData) (l : List SignatureData) :
    (insertSig x l).Perm (x :: l) := by
  induction l with
  | nil => simp [insertSig]
  | cons y ys ih =>
    by_cases h : signMessageLess x y = true
    · rw [insertSig, if_pos h]
    · rw [insertSig, if_neg h]
      exact (List.Perm.cons y ih).trans (List.Perm.swap x y ys)

/-! ## Claims -/

/-- C1 (amended): the signature list returned by `SignMessage` for a
successful batch keysign is the collected signatures rearranged into
DESCENDING order of the big-endian numeric value of each signature's `M`
field (the comparator handed to `sort.SliceStable` orders high `M` first). -/
theorem c1_signatures_sorted_descending (results : List SignatureData) :
    isSortedDescByM (sortSignatures results) = true ∧
    (sortSignatures results).Perm results := by
  induction results with
  | nil => simp [sortSignatures, isSortedDescByM]
  | cons s rest ih =>
    refine ⟨insertSig_sorted s _ ih.1, ?_⟩
    exact (insertSig_perm s _).trans (List.Perm.cons s ih.2)

/-- C1 (counterexample): sorting the two collected signatures with `M`
values 1 and 2 as `SignMessage` does yields the list `[M=2, M=1]`, which is
not in ascending order of big-endian `M`. -/
theorem c1_counterexample :
    sortSignatures [⟨[1], [], []⟩, ⟨[2], [], []⟩] =
      [⟨[2], [], []⟩, ⟨[1], [], []⟩] ∧
    isSortedAscByM (sortSignatures [⟨[1], [], []⟩, ⟨[2], [], []⟩]) = false := by
  decide

/-- C2 (code evaluation at the failing input): `broadcastToPeers` with an
empty target list writes to nobody even though a discovered peer exists,
while its own helper `shouldWeWriteToPeer` answers that with an empty list
every discovered peer should be written to (and the peer is not the local
host, so `writeToStream` would send).  The early return makes the
broadcast-to-everyone branch unreachable. -/
theorem c2_empty_peer_list_sends_to_no_one :
    broadcastToPeers "self" [] ["QmPeerA", "QmPeerB"] = [] ∧
    shouldWeWriteToPeer "QmPeerA" [] = true ∧
    writeToStream "self" "QmPeerA" = true ∧
    List.filter (fun ai => shouldWeWriteToPeer ai [] && writeToStream "self" ai)
      ["QmPeerA", "QmPeerB"] = ["QmPeerA", "QmPeerB"] := by
  refine ⟨rfl, rfl, rfl, rfl⟩

/-- C3 (counterexample): after the node emits a unicast message of round
`keySign1b` and the keysign timeout fires, the code queries the unicast
evidence of round `keySign1b` itself — the previous round's unicast
evidence (`keySign1aUnicast`) is never consulted, contrary to the claim. -/
theorem c3_counterexample :
    processKeySign 1 none []
        [KSEvent.outMsg ⟨RoundTag.keySign1b, false⟩, KSEvent.timeout] =
      KSOutcome.failure "ErrTssTimeOut"
        [BlameQuery.unicastQ RoundTag.keySign1b,
         BlameQuery.broadcastQ RoundTag.keySign1b] ∧
    GetPreviousKeySignUicast RoundTag.keySign1b = RoundTag.keySign1aUnicast ∧
    BlameQuery.unicastQ (GetPreviousKeySignUicast RoundTag.keySign1b) ∉
      [BlameQuery.unicastQ RoundTag.keySign1b,
       BlameQuery.broadcastQ RoundTag.keySign1b] := by
  decide

/-- C3 (amended): on a keysign round timeout, if the last outbound message
was unicast the blame engine queries the unicast evidence of that same last
round; if it was broadcast it queries the unicast evidence of the previous
round; in both cases it then queries the broadcast evidence of the last
round. -/
theorem c3_amended_timeout_blame_queries (reqNum : Nat)
    (sigs : List SignatureData) (m : LastMsg) (rest : List KSEvent) :
    processKeySign reqNum (some m) sigs (KSEvent.timeout :: rest) =
      KSOutcome.failure "ErrTssTimeOut"
        ((if m.isBroadcast then
            [BlameQuery.unicastQ (GetPreviousKeySignUicast m.type)]
          else
            [BlameQuery.unicastQ m.type]) ++ [BlameQuery.broadcastQ m.type]) := by
  cases hb : m.isBroadcast <;>
    simp [processKeySign, keySignTimeoutQueries, hb]

/-- C4: whenever the keysign event loop returns successfully, the returned
signature list holds exactly `reqNum` signatures (one per message of the
batch), and every returned signature was either already collected or was
received on the end-channel during the trace. -/
theorem c4_batch_success_signature_count (reqNum : Nat) (events : List KSEvent)
    (lastMsg : Option LastMsg) (pre : List SignatureData)
    (sigs : List SignatureData)
    (h : processKeySign reqNum lastMsg pre events = KSOutcome.success sigs) :
    sigs.length = reqNum ∧
    ∀ s ∈ sigs, s ∈ pre ∨ KSEvent.endSig s ∈ events := by
  induction events generalizing lastMsg pre with
  | nil => simp [processKeySign] at h
  | cons e rest ih =>
    cases e with
    | errClosed => simp [processKeySign] at h
    | stopReceived => simp [processKeySign] at h
    | timeout =>
      cases lastMsg <;> simp [processKeySign] at h
    | outMsg m =>
      rw [processKeySign] at h
      obtain ⟨hlen, hmem⟩ := ih (some m) pre h
      refine ⟨hlen, fun s hs => ?_⟩
      rcases hmem s hs with hp | he
      · exact Or.inl hp
      · exact Or.inr (List.mem_cons_of_mem _ he)
    | endSig s0 =>
      rw [processKeySign] at h
      by_cases hfull : (pre ++ [s0]).length == reqNum
      · rw [if_pos hfull] at h
        cases h
        simp only [beq_iff_eq] at hfull
        refine ⟨hfull, fun s hs => ?_⟩
        rcases List.mem_append.mp hs with hp | hone
        · exact Or.inl hp
        · have : s = s0 := List.mem_singleton.mp hone
          exact Or.inr (this ▸ List.mem_cons_self _ _)
      · rw [if_neg hfull] at h
        obtain ⟨hlen, hmem⟩ := ih lastMsg (pre ++ [s0]) h
        refine ⟨hlen, fun s hs => ?_⟩
        rcases hmem s hs with hp | he
        · rcases List.mem_append.mp hp with hp2 | hone
          · exact Or.inl hp2
          · have : s = s0 := List.mem_singleton.mp hone
            exact Or.inr (this ▸ List.mem_cons_self _ _)
        · exact Or.inr (List.mem_cons_of_mem _ he)

/-- C4 (witness): a two-message batch whose trace delivers two signatures on
the end-channel returns a list of exactly two signatures. -/
theorem c4_witness :
    ([⟨[1], [], []⟩, ⟨[2], [], []⟩] : List SignatureData).length = 2 :=
  (c4_batch_success_signature_count 2
    [KSEvent.endSig ⟨[1], [], []⟩, KSEvent.endSig ⟨[2], [], []⟩] none []
    [⟨[1], [], []⟩, ⟨[2], [], []⟩] (by decide)).1

/-- `GetThreshold` on a participant count computes exactly
`ceil((2/3)*n) - 1`. -/
theorem getThreshold_ceil (n : Nat) :
    GetThreshold (n : ℤ) = Except.ok (⌈(2 * n : ℚ) / 3⌉ - 1) := by
  have hA : (((((2 * n + 2) / 3 : Nat)) : ℤ) - 1) * 3 < 2 * (n : ℤ) := by omega
  have hB : 2 * (n : ℤ) ≤ ((((2 * n + 2) / 3 : Nat)) : ℤ) * 3 := by omega
  have hq : ⌈(2 * n : ℚ) / 3⌉ = (((2 * n + 2) / 3 : Nat) : ℤ) := by
    rw [Int.ceil_eq_iff]
    constructor
    · rw [lt_div_iff₀ (by norm_num : (0 : ℚ) < 3)]
      exact_mod_cast hA
    · rw [div_le_iff₀ (by norm_num : (0 : ℚ) < 3)]
      exact_mod_cast hB
  unfold GetThreshold
  rw [if_neg (by omega : ¬ ((n : ℤ) < 0))]
  exact congrArg Except.ok (by rw [hq]; omega)

/-- C5: `KeySign` computes its threshold from the participant-key count as
`ceil((2/3)*n) - 1` and returns the Go error `not enough signers`, starting
no signing session, whenever the signer count is at most that threshold
(independently of the party-formation and signing outcomes). -/
theorem c5_keysign_threshold_gate (localPk leaderPk : String)
    (participantKeys signerPubKeys : List String) (jp : JoinPartyRes)
    (so : SignOutcome)
    (hne : signerPubKeys.length ≠ 0)
    (hle : (signerPubKeys.length : ℤ) ≤
      ⌈(2 * participantKeys.length : ℚ) / 3⌉ - 1) :
    GetThreshold ((participantKeys.length : ℤ)) =
      Except.ok (⌈(2 * participantKeys.length : ℚ) / 3⌉ - 1) ∧
    KeySign localPk participantKeys signerPubKeys leaderPk jp so =
      KeySignRet.retErr "not enough signers" := by
  refine ⟨getThreshold_ceil _, ?_⟩
  have h0 : ¬ ((signerPubKeys.length == 0) = true) := by simpa using hne
  unfold KeySign
  rw [if_neg h0, getThreshold_ceil participantKeys.length]
  exact if_pos hle

/-- C5 (witness): with 4 participant keys the threshold is
`ceil(8/3) - 1 = 2`, and a request with only 2 signer keys is rejected with
the error `not enough signers`. -/
theorem c5_witness :
    GetThreshold (((["a", "b", "c", "d"] : List String).length : ℤ)) =
      Except.ok (⌈(2 * (["a", "b", "c", "d"] : List String).length : ℚ) / 3⌉ - 1) ∧
    KeySign "me" ["a", "b", "c", "d"] ["a", "me"] "lead" JoinPartyRes.jpSuccess
      (SignOutcome.sigOk []) = KeySignRet.retErr "not enough signers" :=
  c5_keysign_threshold_gate "me" "lead" ["a", "b", "c", "d"] ["a", "me"]
    JoinPartyRes.jpSuccess (SignOutcome.sigOk [])
    (by decide)
    (by
      have h8 : ⌈(2 * ((["a", "b", "c", "d"] : List String).length : ℚ)) / 3⌉ = 3 := by
        rw [Int.ceil_eq_iff]
        constructor <;> norm_num
      rw [h8]
      decide)

/-- C6: when party formation (`joinParty`) fails with an error, `KeySign`
returns — with a nil Go error — a response whose status is `Fail` and whose
blame names exactly the party-formation leader under the
`BlameTssCoordinator` reason. -/
theorem c6_joinparty_error_blames_leader (localPk leaderPk : String)
    (participantKeys signerPubKeys : List String) (so : SignOutcome) (t : ℤ)
    (hne : signerPubKeys.length ≠ 0)
    (hth : GetThreshold ((participantKeys.length : ℤ)) = Except.ok t)
    (hgt : t < (signerPubKeys.length : ℤ))
    (hmem : signerPubKeys.contains localPk = true) :
    KeySign localPk participantKeys signerPubKeys leaderPk JoinPartyRes.jpErr so =
      KeySignRet.retResp
        ⟨Status.fail, NewBlame BlameReason.tssCoordinator [leaderPk], []⟩ := by
  have h0 : ¬ ((signerPubKeys.length == 0) = true) := by simpa using hne
  have h2 : ¬ ((signerPubKeys.length : ℤ) ≤ t) := Int.not_le.mpr hgt
  unfold KeySign
  rw [if_neg h0, hth]
  refine Eq.trans (if_neg h2) ?_
  rw [hmem]
  rfl

/-- C6 (witness): in a 2-participant pool with threshold 1, a 2-signer
request on which party formation errors returns `Fail` blaming the leader,
with no Go error. -/
theorem c6_witness :
    KeySign "me" ["a", "b"] ["me", "a"] "lead" JoinPartyRes.jpErr
      (SignOutcome.sigOk []) =
      KeySignRet.retResp
        ⟨Status.fail, NewBlame BlameReason.tssCoordinator ["lead"], []⟩ :=
  c6_joinparty_error_blames_leader "me" "lead" ["a", "b"] ["me", "a"]
    (SignOutcome.sigOk []) 1 (by decide) rfl (by decide) (by decide)

/-- C7: a frame whose length header declares more than `MaxPayload` bytes
makes the read loop return (dropping the stream): the messages delivered to
subscribers are exactly those of the frames before it — nothing of the
oversize frame or of any later frame is ever delivered. -/
theorem c7_oversize_frame_drops_stream
    (sub : THORChainTSSMessageType → String → Bool) (pre : List StreamItem)
    (l : Nat) (m : Option WrappedMessage) (rest : List StreamItem)
    (h : l > MaxPayload) :
    readFromStream sub (pre ++ StreamItem.frame l m :: rest) =
      readFromStream sub pre := by
  induction pre with
  | nil => simp [readFromStream, h]
  | cons it pre2 ih =>
    cases it with
    | eof => simp [readFromStream]
    | frame l2 m2 =>
      by_cases h2 : l2 > MaxPayload
      · simp [readFromStream, h2]
      · cases m2 with
        | none => simp [readFromStream, h2, ih]
        | some w =>
          by_cases hs : sub w.messageType w.msgID
          · simp [readFromStream, h2, hs, ih]
          · simp [readFromStream, h2, hs, ih]

/-- C7 (witness): a stream whose first frame declares 81921 bytes delivers
nothing, even though a later well-formed frame with a live subscriber
follows. -/
theorem c7_witness :
    readFromStream (fun _ _ => true)
      ([] ++ StreamItem.frame 81921
          (some ⟨THORChainTSSMessageType.TSSKeySignMsg, "id", [1]⟩) ::
        [StreamItem.frame 10
          (some ⟨THORChainTSSMessageType.TSSKeySignMsg, "id", [2]⟩)]) =
      readFromStream (fun _ _ => true) [] :=
  c7_oversize_frame_drops_stream (fun _ _ => true) [] 81921
    (some ⟨THORChainTSSMessageType.TSSKeySignMsg, "id", [1]⟩)
    [StreamItem.frame 10 (some ⟨THORChainTSSMessageType.TSSKeySignMsg, "id", [2]⟩)]
    (by decide)

/-- Filtering out the entries of key `t` does not change a lookup for a
different key `t2`. -/
theorem find?_filter_key_ne (s : Subscribers) (t t2 : THORChainTSSMessageType)
    (h : t2 ≠ t) :
    List.find? (fun p => p.1 == t2) (List.filter (fun p => !(p.1 == t)) s) =
      List.find? (fun p => p.1 == t2) s := by
  induction s with
  | nil => rfl
  | cons p ps ih =>
    by_cases hp : p.1 = t
    · have h1 : (p.1 == t) = true := by simp [hp]
      have h2 : (p.1 == t2) = false := by
        simp only [beq_eq_false_iff_ne, ne_eq, hp]
        exact fun hh => h hh.symm
      simp [List.filter_cons, h1, List.find?, h2, ih]
    · have h1 : (p.1 == t) = false := by simp [hp]
      by_cases hq : p.1 = t2
      · have h2 : (p.1 == t2) = true := by simp [hq]
        simp [List.filter_cons, h1, List.find?, h2]
      · have h2 : (p.1 == t2) = false := by simp [hq]
        simp [List.filter_cons, h1, List.find?, h2, ih]

/-- After filtering out the entries of key `t`, a lookup for `t` fails. -/
theorem find?_filter_key_self (s : Subscribers) (t : THORChainTSSMessageType) :
    List.find? (fun p => p.1 == t) (List.filter (fun p => !(p.1 == t)) s) =
      none := by
  induction s with
  | nil => rfl
  | cons p ps ih =>
    by_cases hp : p.1 = t
    · have h1 : (p.1 == t) = true := by simp [hp]
      simp [List.filter_cons, h1, ih]
    · have h1 : (p.1 == t) = false := by simp [hp]
      simp [List.filter_cons, h1, List.find?, ih]

/-- Reading back the key just stored. -/
theorem subLookup_store_self (s : Subscribers) (t : THORChainTSSMessageType)
    (inner : MessageIDSubscriber) :
    subLookup (subStore s t inner) t = some inner := by
  simp [subLookup, subStore, List.find?]

/-- Storing under `t` leaves lookups of other keys unchanged. -/
theorem subLookup_store_ne (s : Subscribers) (t t2 : THORChainTSSMessageType)
    (inner : MessageIDSubscriber) (h : t2 ≠ t) :
    subLookup (subStore s t inner) t2 = subLookup s t2 := by
  have hhead : (t == t2) = false := by
    simp only [beq_eq_false_iff_ne, ne_eq]
    exact fun hh => h hh.symm
  simp [subLookup, subStore, List.find?, hhead, find?_filter_key_ne s t t2 h]

/-- After deleting `t` its lookup fails. -/
theorem subLookup_delete_self (s : Subscribers) (t : THORChainTSSMessageType) :
    subLookup (subDelete s t) t = none := by
  simp [subLookup, subDelete, find?_filter_key_self]

/-- Deleting `t` leaves lookups of other keys unchanged. -/
theorem subLookup_delete_ne (s : Subscribers) (t t2 : THORChainTSSMessageType)
    (h : t2 ≠ t) :
    subLookup (subDelete s t) t2 = subLookup s t2 := by
  simp [subLookup, subDelete, find?_filter_key_ne s t t2 h]

/-- `SetSubscribe` preserves the no-empty-leaves invariant: the inner map it
stores always holds the entry just subscribed. -/
theorem setSubscribe_noEmptyLeaves (s : Subscribers)
    (t : THORChainTSSMessageType) (id : String) (ch : Nat)
    (h : noEmptyLeaves s) : noEmptyLeaves (SetSubscribe s t id ch) := by
  intro t2 inner2 hl
  unfold SetSubscribe at hl
  by_cases ht : t2 = t
  · subst ht
    cases hcase : subLookup s t2 with
    | none =>
      rw [hcase, subLookup_store_self] at hl
      cases hl
      simp [msidSubscribe, NewMessageIDSubscriber]
    | some inner =>
      rw [hcase, subLookup_store_self] at hl
      cases hl
      simp [msidSubscribe]
  · cases hcase : subLookup s t with
    | none =>
      rw [hcase, subLookup_store_ne s t t2 _ ht] at hl
      exact h t2 inner2 hl
    | some inner =>
      rw [hcase, subLookup_store_ne s t t2 _ ht] at hl
      exact h t2 inner2 hl

/-- `CancelSubscribe` preserves the no-empty-leaves invariant: an inner map
that became empty removes its outer entry. -/
theorem cancelSubscribe_noEmptyLeaves (s : Subscribers)
    (t : THORChainTSSMessageType) (id : String)
    (h : noEmptyLeaves s) : noEmptyLeaves (CancelSubscribe s t id) := by
  intro t2 inner2 hl
  unfold CancelSubscribe at hl
  cases hcase : subLookup s t with
  | none =>
    rw [hcase] at hl
    exact h t2 inner2 hl
  | some inner =>
    rw [hcase] at hl
    dsimp only at hl
    by_cases hemp : msidIsEmpty (msidUnSubscribe inner id) = true
    · rw [if_pos hemp] at hl
      by_cases ht : t2 = t
      · subst ht
        rw [subLookup_delete_self] at hl
        cases hl
      · rw [subLookup_delete_ne s t t2 ht] at hl
        exact h t2 inner2 hl
    · rw [if_neg hemp] at hl
      by_cases ht : t2 = t
      · subst ht
        rw [subLookup_store_self] at hl
        cases hl
        intro hnil
        exact hemp (by simp [msidIsEmpty, hnil])
      · rw [subLookup_store_ne s t t2 _ ht] at hl
        exact h t2 inner2 hl

/-- Any sequence of subscription operations preserves the invariant. -/
theorem applySubOps_noEmptyLeaves (ops : List SubOp) (s : Subscribers)
    (h : noEmptyLeaves s) : noEmptyLeaves (applySubOps s ops) := by
  induction ops generalizing s with
  | nil => exact h
  | cons op rest ih =>
    cases op with
    | set t id ch =>
      exact ih _ (setSubscribe_noEmptyLeaves s t id ch h)
    | cancel t id =>
      exact ih _ (cancelSubscribe_noEmptyLeaves s t id h)

/-- C8: starting from the empty table, after any sequence of `SetSubscribe`
and `CancelSubscribe` operations, every message type present in the
subscribers map holds at least one registered (msg-id, channel) entry:
`CancelSubscribe` deletes the outer entry when the inner set empties, and
`SetSubscribe` always stores the fresh entry, so no empty leaf survives. -/
theorem c8_no_empty_leaves (ops : List SubOp) (t : THORChainTSSMessageType)
    (inner : MessageIDSubscriber)
    (h : subLookup (applySubOps [] ops) t = some inner) : inner ≠ [] := by
  have hnil : noEmptyLeaves ([] : Subscribers) := by
    intro t2 i hl
    simp [subLookup, List.find?] at hl
  exact applySubOps_noEmptyLeaves ops [] hnil t inner h

/-- C8 (witness): after one `SetSubscribe`, the leaf found under the
registered type is the nonempty singleton just stored. -/
theorem c8_witness : ([("m", 1)] : MessageIDSubscriber) ≠ [] :=
  c8_no_empty_leaves [SubOp.set THORChainTSSMessageType.TSSKeyGenMsg "m" 1]
    THORChainTSSMessageType.TSSKeyGenMsg [("m", 1)] (by decide)

/-- C9: when the keygen timeout fires while the blame manager holds no last
outbound message (the local party produced nothing yet), `processKeyGen`
returns the timeout error at once with an empty blame verdict: no node is
accused and no unicast, broadcast or missing-share evidence is consulted —
whatever the evidence tables contain. -/
theorem c9_keygen_timeout_without_message (uniEv bcastEv : RoundTag → List String)
    (missing : List String × Bool) (threshold : Nat) (rest : List KGEvent) :
    processKeyGen uniEv bcastEv missing threshold none
        (KGEvent.timeout :: rest) =
      KGOutcome.failure "timeout before shared message is generated"
        ⟨[], false, []⟩ := rfl

/-- C10: a `KeySign` request with an empty signer-public-key list returns
the explicit Go error `empty signer pub keys`, whatever the party-formation
and signing outcomes would have been — so neither party formation nor
signing nor any blame assignment takes place, and no `Fail` response with a
blame body is produced. -/
theorem c10_empty_signers_error (localPk leaderPk : String)
    (participantKeys : List String) (jp : JoinPartyRes) (so : SignOutcome) :
    KeySign localPk participantKeys [] leaderPk jp so =
      KeySignRet.retErr "empty signer pub keys" := rfl

end GoTss
